import Mathlib

set_option maxRecDepth 8000

/-!
Verification development for the rhorizons ephemeris parsers
(src/src/ephemeris.rs).  Lines of the report are embedded as `List Char`;
the two iterator state machines (`EphemerisVectorParser`,
`EphemerisOrbitalElementsParser`) are embedded as explicit step functions
plus a driver `runParser` that collects the items an iterator would yield,
stopping at the first parse failure (the Rust code panics there; the spec
re-architects the panic as a fatal `FieldTagMismatch` or
`NumericFormatError`, which we model with `Except`).

Rust `f32` values are embedded as rationals obtained by correctly rounding
the exactly-parsed decimal value to 24 significant bits (round to nearest,
ties to even, minimum exponent -126 so that subnormal values round
correctly too; overflow to infinity is not modelled, no claim exercises
it).  The special spellings `inf` / `nan` accepted by Rust's float parser
are likewise outside the spec's input contract and not modelled.
-/

abbrev Chars := List Char

/-- The two error kinds of the spec (section 7).  `fieldTagMismatch`
carries the expected tag and the actual content at the cursor,
`numericFormatError` carries the offending trimmed slice. -/
inductive ParseError
  | fieldTagMismatch (expected : Chars) (actual : Chars)
  | numericFormatError (slice : Chars)
deriving DecidableEq

deriving instance DecidableEq for Except

/-- Modelled from the spec: the fixed-column field-slicing utility
(`take_expecting` of the repository's `utilities` module, which is not
under src/).  Per spec section 4.1 the line must begin with the literal
expected tag; on success the remainder after the tag is returned, on
failure a `FieldTagMismatch` identifying the expected tag and the actual
content is raised. -/
def take_expecting (line tag : Chars) : Except ParseError Chars :=
  if tag.isPrefixOf line then .ok (line.drop tag.length)
  else .error (.fieldTagMismatch tag line)

/-- Modelled from the spec: the fixed-width slice utility (`take_or_empty`
of the repository's `utilities` module, which is not under src/).  Per
spec section 4.1 it returns the next `n` characters and the remaining
suffix of the line; when fewer than `n` characters remain it returns what
is left and an empty remainder. -/
def take_or_empty (line : Chars) (n : ℕ) : Chars × Chars :=
  (line.take n, line.drop n)

/-- Embedding of Rust `str::trim` as used on field slices (the report
format only ever pads with ASCII blanks, so ASCII whitespace suffices). -/
def trimChars (l : Chars) : Chars :=
  ((l.dropWhile Char.isWhitespace).reverse.dropWhile Char.isWhitespace).reverse

/-- Longest leading run of decimal digits, as digit values, plus the rest. -/
def takeDigits : Chars → List ℕ × Chars
  | [] => ([], [])
  | c :: cs =>
    if c.isDigit then
      let (ds, rest) := takeDigits cs
      ((c.toNat - 48) :: ds, rest)
    else ([], c :: cs)

def digitsToNat (ds : List ℕ) : ℕ :=
  ds.foldl (fun a d => 10 * a + d) 0

/-- Optional leading sign. -/
def takeSign : Chars → ℤ × Chars
  | '+' :: cs => (1, cs)
  | '-' :: cs => (-1, cs)
  | cs => (1, cs)

/-- Exact value of a decimal or scientific (`E±NN`) numeric literal, the
notation accepted for field values (spec section 6); `none` when the slice
is not such a literal. -/
def parseSci (l : Chars) : Option ℚ :=
  let (sgn, cs) := takeSign l
  let (ip, cs1) := takeDigits cs
  let (fp, cs2) :=
    match cs1 with
    | '.' :: rest => takeDigits rest
    | _ => ([], cs1)
  if ip = [] ∧ fp = [] then none
  else
    let mant : ℚ := (sgn : ℚ) * (digitsToNat (ip ++ fp) : ℚ) / (10 : ℚ) ^ fp.length
    match cs2 with
    | [] => some mant
    | c :: rest =>
      if c = 'e' ∨ c = 'E' then
        let (esgn, rest1) := takeSign rest
        let (eds, rest2) := takeDigits rest1
        if eds = [] ∨ rest2 ≠ [] then none
        else some (mant * (10 : ℚ) ^ (esgn * (digitsToNat eds : ℤ)))
      else none

/-- Fuel-driven floor of the base-2 logarithm (kernel-reducible, unlike
`Nat.log2`). -/
def log2fuel : ℕ → ℕ → ℕ
  | 0, _ => 0
  | fuel + 1, n => if 2 ≤ n then log2fuel fuel (n / 2) + 1 else 0

def natFloorLog2 (n : ℕ) : ℕ :=
  log2fuel n n

def natCeilLog2 (n : ℕ) : ℕ :=
  if n ≤ 1 then 0 else natFloorLog2 (n - 1) + 1

/-- Floor of the base-2 logarithm of a positive rational. -/
def ratFloorLog2 (q : ℚ) : ℤ :=
  let a := q.num.natAbs
  let b := q.den
  if b ≤ a then (natFloorLog2 (a / b) : ℤ)
  else -(natCeilLog2 ((b + a - 1) / a) : ℤ)

/-- Round to the nearest integer, ties to even. -/
def roundHalfEven (q : ℚ) : ℤ :=
  let n := ⌊q⌋
  let frac := q - (n : ℚ)
  if frac < 1 / 2 then n
  else if 1 / 2 < frac then n + 1
  else if n % 2 = 0 then n else n + 1

/-- Value of a binary floating-point format with `prec` significand bits
and minimum exponent `emin` nearest to `q` (round to nearest, ties to
even; subnormal values handled by clamping the exponent at `emin`). -/
def roundToFloat (prec : ℕ) (emin : ℤ) (q : ℚ) : ℚ :=
  if q = 0 then 0
  else
    let s : ℚ := if q < 0 then -1 else 1
    let aq := |q|
    let e : ℤ := max (ratFloorLog2 aq) emin
    let ulpExp : ℤ := e - ((prec : ℤ) - 1)
    s * (roundHalfEven (aq / (2 : ℚ) ^ ulpExp) : ℚ) * (2 : ℚ) ^ ulpExp

/-- IEEE 754 binary32 rounding: the precision of Rust `f32`. -/
def round32 (q : ℚ) : ℚ :=
  roundToFloat 24 (-126) q

/-- IEEE 754 binary64 rounding: the precision the spec's data model asks
for (`float64`). -/
def round64 (q : ℚ) : ℚ :=
  roundToFloat 53 (-1022) q

/-- Embedding of `slice.trim().parse::<f32>()` as performed on every kept
field slice of ephemeris.rs (lines 126-128, 146-148, 201-202, 222-229,
252, 279); the panic of `unwrap` is the spec's `NumericFormatError`. -/
def parseNum (slice : Chars) : Except ParseError ℚ :=
  match parseSci (trimChars slice) with
  | some q => .ok (round32 q)
  | none => .error (.numericFormatError (trimChars slice))

def soeMarker : Chars := "$$SOE".toList
def eoeMarker : Chars := "$$EOE".toList
def xTag : Chars := " X =".toList
def yTag : Chars := " Y =".toList
def zTag : Chars := " Z =".toList
def vxTag : Chars := " VX=".toList
def vyTag : Chars := " VY=".toList
def vzTag : Chars := " VZ=".toList
def ecTag : Chars := " EC=".toList
def qrTag : Chars := " QR=".toList
def inTag : Chars := " IN=".toList
def omTag : Chars := " OM=".toList
def wTag : Chars := " W =".toList
def tpTag : Chars := " Tp=".toList
def nTag : Chars := " N =".toList
def maTag : Chars := " MA=".toList
def taTag : Chars := " TA=".toList
def aTag : Chars := " A =".toList
def adTag : Chars := " AD=".toList
def prTag : Chars := " PR=".toList

/-- Position (km) and velocity (km/s) of a body (ephemeris.rs lines 3-8);
components are the embedded `f32` values. -/
structure EphemerisVectorItem where
  position : ℚ × ℚ × ℚ
  velocity : ℚ × ℚ × ℚ
deriving DecidableEq

/-- The six kept orbital elements (ephemeris.rs lines 10-26). -/
structure EphemerisOrbitalElementsItem where
  eccentricity : ℚ
  inclination : ℚ
  longitude_of_ascending_node : ℚ
  argument_of_perifocus : ℚ
  mean_anomaly : ℚ
  semi_major_axis : ℚ
deriving DecidableEq

/-- ephemeris.rs lines 28-40. -/
inductive EphemerisVectorParserState
  | WaitingForSoe
  | WaitingForDate
  | WaitingForPosition
  | Position (position : ℚ × ℚ × ℚ)
  | Complete (position velocity : ℚ × ℚ × ℚ)
  | End
deriving DecidableEq

/-- ephemeris.rs lines 42-64. -/
inductive EphemerisOrbitalElementsParserState
  | WaitingForSoe
  | WaitingForDate
  | WaitingForEccentricityAndInclination
  | EccentricityAndInclination (eccentricity inclination : ℚ)
  | AddedAscendingNodeAndPericfocus
      (eccentricity inclination longitude_of_ascending_node argument_of_perifocus : ℚ)
  | AddedMeanAnomaly
      (eccentricity inclination longitude_of_ascending_node argument_of_perifocus mean_anomaly : ℚ)
  | End
deriving DecidableEq

/-- The X/Y/Z line of a vector block (ephemeris.rs lines 113-131): three
tagged 22-character fields, parsed in the order X, Y, Z. -/
def parsePositionLine (line : Chars) : Except ParseError (ℚ × ℚ × ℚ) :=
  match take_expecting line xTag with
  | .error e => .error e
  | .ok r1 =>
    match take_expecting (take_or_empty r1 22).2 yTag with
    | .error e => .error e
    | .ok r2 =>
      match take_expecting (take_or_empty r2 22).2 zTag with
      | .error e => .error e
      | .ok r3 =>
        match parseNum (take_or_empty r1 22).1, parseNum (take_or_empty r2 22).1,
            parseNum (take_or_empty r3 22).1 with
        | .ok xv, .ok yv, .ok zv => .ok (xv, yv, zv)
        | .error e, _, _ => .error e
        | .ok _, .error e, _ => .error e
        | .ok _, .ok _, .error e => .error e

/-- The VX/VY/VZ line of a vector block (ephemeris.rs lines 132-151). -/
def parseVelocityLine (line : Chars) : Except ParseError (ℚ × ℚ × ℚ) :=
  match take_expecting line vxTag with
  | .error e => .error e
  | .ok r1 =>
    match take_expecting (take_or_empty r1 22).2 vyTag with
    | .error e => .error e
    | .ok r2 =>
      match take_expecting (take_or_empty r2 22).2 vzTag with
      | .error e => .error e
      | .ok r3 =>
        match parseNum (take_or_empty r1 22).1, parseNum (take_or_empty r2 22).1,
            parseNum (take_or_empty r3 22).1 with
        | .ok xv, .ok yv, .ok zv => .ok (xv, yv, zv)
        | .error e, _, _ => .error e
        | .ok _, .error e, _ => .error e
        | .ok _, .ok _, .error e => .error e

/-- First orbital-elements line: EC kept, QR discarded, IN kept
(ephemeris.rs lines 189-204). -/
def parseElems1 (line : Chars) : Except ParseError (ℚ × ℚ) :=
  match take_expecting line ecTag with
  | .error e => .error e
  | .ok r1 =>
    match take_expecting (take_or_empty r1 22).2 qrTag with
    | .error e => .error e
    | .ok r2 =>
      match take_expecting (take_or_empty r2 22).2 inTag with
      | .error e => .error e
      | .ok r3 =>
        match parseNum (take_or_empty r1 22).1, parseNum (take_or_empty r3 22).1 with
        | .ok ev, .ok iv => .ok (ev, iv)
        | .error e, _ => .error e
        | .ok _, .error e => .error e

/-- Second orbital-elements line: OM kept, W kept, Tp discarded
(ephemeris.rs lines 205-231). -/
def parseElems2 (line : Chars) : Except ParseError (ℚ × ℚ) :=
  match take_expecting line omTag with
  | .error e => .error e
  | .ok r1 =>
    match take_expecting (take_or_empty r1 22).2 wTag with
    | .error e => .error e
    | .ok r2 =>
      match take_expecting (take_or_empty r2 22).2 tpTag with
      | .error e => .error e
      | .ok _r3 =>
        match parseNum (take_or_empty r1 22).1, parseNum (take_or_empty r2 22).1 with
        | .ok ov, .ok wv => .ok (ov, wv)
        | .error e, _ => .error e
        | .ok _, .error e => .error e

/-- Third orbital-elements line: N discarded, MA kept, TA discarded
(ephemeris.rs lines 232-254). -/
def parseElems3 (line : Chars) : Except ParseError ℚ :=
  match take_expecting line nTag with
  | .error e => .error e
  | .ok r1 =>
    match take_expecting (take_or_empty r1 22).2 maTag with
    | .error e => .error e
    | .ok r2 =>
      match take_expecting (take_or_empty r2 22).2 taTag with
      | .error e => .error e
      | .ok _r3 => parseNum (take_or_empty r2 22).1

/-- Fourth orbital-elements line: A kept, AD discarded, PR discarded
(ephemeris.rs lines 255-281). -/
def parseElems4 (line : Chars) : Except ParseError ℚ :=
  match take_expecting line aTag with
  | .error e => .error e
  | .ok r1 =>
    match take_expecting (take_or_empty r1 22).2 adTag with
    | .error e => .error e
    | .ok r2 =>
      match take_expecting (take_or_empty r2 22).2 prTag with
      | .error e => .error e
      | .ok _r3 => parseNum (take_or_empty r1 22).1

/-- One pulled line of `EphemerisVectorParser::next` (ephemeris.rs lines
97-167): the state transition plus the item yielded, if any. -/
def stepV (s : EphemerisVectorParserState) (line : Chars) :
    Except ParseError (Option EphemerisVectorItem × EphemerisVectorParserState) :=
  match s with
  | .WaitingForSoe =>
    .ok (none, if line = soeMarker then .WaitingForDate else .WaitingForSoe)
  | .WaitingForDate =>
    .ok (none, if line = eoeMarker then .End else .WaitingForPosition)
  | .WaitingForPosition =>
    match parsePositionLine line with
    | .ok position => .ok (none, .Position position)
    | .error e => .error e
  | .Position position =>
    match parseVelocityLine line with
    | .ok velocity => .ok (none, .Complete position velocity)
    | .error e => .error e
  | .Complete position velocity =>
    .ok (some ⟨position, velocity⟩, .WaitingForDate)
  | .End => .ok (none, .End)

/-- One pulled line of `EphemerisOrbitalElementsParser::next` (ephemeris.rs
lines 173-292). -/
def stepO (s : EphemerisOrbitalElementsParserState) (line : Chars) :
    Except ParseError (Option EphemerisOrbitalElementsItem × EphemerisOrbitalElementsParserState) :=
  match s with
  | .WaitingForSoe =>
    .ok (none, if line = soeMarker then .WaitingForDate else .WaitingForSoe)
  | .WaitingForDate =>
    .ok (none, if line = eoeMarker then .End else .WaitingForEccentricityAndInclination)
  | .WaitingForEccentricityAndInclination =>
    match parseElems1 line with
    | .ok (ev, iv) => .ok (none, .EccentricityAndInclination ev iv)
    | .error e => .error e
  | .EccentricityAndInclination ev iv =>
    match parseElems2 line with
    | .ok (ov, wv) => .ok (none, .AddedAscendingNodeAndPericfocus ev iv ov wv)
    | .error e => .error e
  | .AddedAscendingNodeAndPericfocus ev iv ov wv =>
    match parseElems3 line with
    | .ok mv => .ok (none, .AddedMeanAnomaly ev iv ov wv mv)
    | .error e => .error e
  | .AddedMeanAnomaly ev iv ov wv mv =>
    match parseElems4 line with
    | .ok av => .ok (some ⟨ev, iv, ov, wv, mv, av⟩, .WaitingForDate)
    | .error e => .error e
  | .End => .ok (none, .End)

/-- Driver: collect every item the iterator yields over the given lines;
the second component reports the fatal parse failure, if one occurred
(items yielded before the failure are kept). -/
def runParser {σ ι : Type} (step : σ → Chars → Except ParseError (Option ι × σ)) :
    σ → List Chars → List ι × Option ParseError
  | _, [] => ([], none)
  | s, l :: ls =>
    match step s l with
    | .error e => ([], some e)
    | .ok (none, s2) => runParser step s2 ls
    | .ok (some item, s2) =>
      let r := runParser step s2 ls
      (item :: r.1, r.2)

/-- `EphemerisVectorParser::parse` initializes the state to WaitingForSoe
(ephemeris.rs lines 76-83). -/
def vectorParserInitState : EphemerisVectorParserState :=
  .WaitingForSoe

/-- `EphemerisOrbitalElementsParser::parse` initializes the state to
WaitingForSoe (ephemeris.rs lines 85-92). -/
def orbitalParserInitState : EphemerisOrbitalElementsParserState :=
  .WaitingForSoe

/-- Full run of `EphemerisVectorParser::parse(lines).collect()`. -/
def runVector (ls : List Chars) : List EphemerisVectorItem × Option ParseError :=
  runParser stepV vectorParserInitState ls

/-- Full run of `EphemerisOrbitalElementsParser::parse(lines).collect()`. -/
def runOrbital (ls : List Chars) : List EphemerisOrbitalElementsItem × Option ParseError :=
  runParser stepO orbitalParserInitState ls

/-- True exactly when the fallible computation succeeded. -/
def isOkE {ε α : Type _} : Except ε α → Bool
  | .ok _ => true
  | .error _ => false

/-- Line of a vector block holding the three position fields, each slice
22 characters wide. -/
def posLineOf (sx sy sz : Chars) : Chars :=
  xTag ++ (sx ++ (yTag ++ (sy ++ (zTag ++ sz))))

/-- Line of a vector block holding the three velocity fields. -/
def velLineOf (sx sy sz : Chars) : Chars :=
  vxTag ++ (sx ++ (vyTag ++ (sy ++ (vzTag ++ sz))))

/-- First orbital-elements line built from its three field slices. -/
def elemsLine1 (ec qr inc : Chars) : Chars :=
  ecTag ++ (ec ++ (qrTag ++ (qr ++ (inTag ++ inc))))

/-- Second orbital-elements line built from its three field slices. -/
def elemsLine2 (om w tp : Chars) : Chars :=
  omTag ++ (om ++ (wTag ++ (w ++ (tpTag ++ tp))))

/-- Third orbital-elements line built from its three field slices. -/
def elemsLine3 (nn ma ta : Chars) : Chars :=
  nTag ++ (nn ++ (maTag ++ (ma ++ (taTag ++ ta))))

/-- Fourth orbital-elements line built from its three field slices. -/
def elemsLine4 (a ad pr : Chars) : Chars :=
  aTag ++ (a ++ (adTag ++ (ad ++ (prTag ++ pr))))

/-- One record block of a vector report: the date/label line, the
position line, the velocity line and the ignored third line. -/
structure VectorBlock where
  date : Chars
  posLine : Chars
  velLine : Chars
  thirdLine : Chars

def VectorBlock.lines (b : VectorBlock) : List Chars :=
  [b.date, b.posLine, b.velLine, b.thirdLine]

def VectorBlock.item? (b : VectorBlock) : Option EphemerisVectorItem :=
  match parsePositionLine b.posLine, parseVelocityLine b.velLine with
  | .ok p, .ok v => some ⟨p, v⟩
  | _, _ => none

/-- Well-formedness of a vector block: the date line is not the end
marker and both field lines parse. -/
def VectorBlock.Valid (b : VectorBlock) : Prop :=
  b.date ≠ eoeMarker ∧ isOkE (parsePositionLine b.posLine) = true ∧
    isOkE (parseVelocityLine b.velLine) = true

/-- One record block of an orbital-elements report: the date/label line
and the four element lines. -/
structure OrbitalBlock where
  date : Chars
  line1 : Chars
  line2 : Chars
  line3 : Chars
  line4 : Chars

def OrbitalBlock.lines (b : OrbitalBlock) : List Chars :=
  [b.date, b.line1, b.line2, b.line3, b.line4]

def OrbitalBlock.item? (b : OrbitalBlock) : Option EphemerisOrbitalElementsItem :=
  match parseElems1 b.line1, parseElems2 b.line2, parseElems3 b.line3, parseElems4 b.line4 with
  | .ok (ev, iv), .ok (ov, wv), .ok mv, .ok av => some ⟨ev, iv, ov, wv, mv, av⟩
  | _, _, _, _ => none

/-- Well-formedness of an orbital-elements block. -/
def OrbitalBlock.Valid (b : OrbitalBlock) : Prop :=
  b.date ≠ eoeMarker ∧ isOkE (parseElems1 b.line1) = true ∧
    isOkE (parseElems2 b.line2) = true ∧ isOkE (parseElems3 b.line3) = true ∧
    isOkE (parseElems4 b.line4) = true

instance (b : VectorBlock) : Decidable b.Valid :=
  inferInstanceAs (Decidable (b.date ≠ eoeMarker ∧
    isOkE (parsePositionLine b.posLine) = true ∧ isOkE (parseVelocityLine b.velLine) = true))

instance (b : OrbitalBlock) : Decidable b.Valid :=
  inferInstanceAs (Decidable (b.date ≠ eoeMarker ∧ isOkE (parseElems1 b.line1) = true ∧
    isOkE (parseElems2 b.line2) = true ∧ isOkE (parseElems3 b.line3) = true ∧
    isOkE (parseElems4 b.line4) = true))

/-- Lifecycle phase of a vector-parser state: 0 before the start marker
is seen, 1 inside the data section (the spec's record cycle
AwaitingRecordOrEnd -> ... -> Complete -> reset lives entirely in this
phase), 2 once the end marker has been consumed. -/
def vectorPhase : EphemerisVectorParserState → ℕ
  | .WaitingForSoe => 0
  | .End => 2
  | _ => 1

/-- Lifecycle phase of an orbital-elements-parser state. -/
def orbitalPhase : EphemerisOrbitalElementsParserState → ℕ
  | .WaitingForSoe => 0
  | .End => 2
  | _ => 1

/-- A rational that is the value of some IEEE binary32 rounding, i.e. a
value representable as a Rust `f32`. -/
def isF32 (q : ℚ) : Prop :=
  ∃ r : ℚ, q = round32 r

/-- All six components of a vector item are f32 values. -/
def vectorItemAllF32 (it : EphemerisVectorItem) : Prop :=
  isF32 it.position.1 ∧ isF32 it.position.2.1 ∧ isF32 it.position.2.2 ∧
    isF32 it.velocity.1 ∧ isF32 it.velocity.2.1 ∧ isF32 it.velocity.2.2

/-- All six kept orbital elements are f32 values. -/
def orbitalItemAllF32 (it : EphemerisOrbitalElementsItem) : Prop :=
  isF32 it.eccentricity ∧ isF32 it.inclination ∧ isF32 it.longitude_of_ascending_node ∧
    isF32 it.argument_of_perifocus ∧ isF32 it.mean_anomaly ∧ isF32 it.semi_major_axis

/-- Every field value accumulated inside a vector-parser state is an f32
value. -/
def vectorStateAllF32 : EphemerisVectorParserState → Prop
  | .Position p => isF32 p.1 ∧ isF32 p.2.1 ∧ isF32 p.2.2
  | .Complete p v =>
    (isF32 p.1 ∧ isF32 p.2.1 ∧ isF32 p.2.2) ∧ (isF32 v.1 ∧ isF32 v.2.1 ∧ isF32 v.2.2)
  | _ => True

/-- Every field value accumulated inside an orbital-parser state is an
f32 value. -/
def orbitalStateAllF32 : EphemerisOrbitalElementsParserState → Prop
  | .EccentricityAndInclination ev iv => isF32 ev ∧ isF32 iv
  | .AddedAscendingNodeAndPericfocus ev iv ov wv =>
    isF32 ev ∧ isF32 iv ∧ isF32 ov ∧ isF32 wv
  | .AddedMeanAnomaly ev iv ov wv mv =>
    isF32 ev ∧ isF32 iv ∧ isF32 ov ∧ isF32 wv ∧ isF32 mv
  | _ => True

/-- Pad a field slice with trailing blanks to the fixed width of 22. -/
def pad22 (s : Chars) : Chars :=
  s ++ List.replicate (22 - s.length) ' '

def demoDateLine : Chars :=
  "2457061.500000000 = A.D. 2015-Feb-08 00:00:00.0000 TDB".toList

def demoPosLine : Chars :=
  " X = 1.870010427985840E+02 Y = 2.484687803242536E+03 Z =-5.861602653492581E+03".toList

def demoVelLine : Chars :=
  " VX=-3.362664133558439E-01 VY= 1.344100266143978E-02 VZ=-5.030275220358716E-03".toList

def demoThirdLine : Chars :=
  " LT= 2.120650930090845E-02 RG= 6.357511823899624E+03 RR= 1.577550222252593E-01".toList

/-- The concrete well-formed vector report of the spec's section 8
scenario, with the field slices at their fixed 22-character offsets. -/
def demoVectorInput : List Chars :=
  [soeMarker, demoDateLine, demoPosLine, demoVelLine, demoThirdLine, eoeMarker]

def demoVectorBlock : VectorBlock :=
  ⟨demoDateLine, demoPosLine, demoVelLine, demoThirdLine⟩

def demoElemsLine1 : Chars :=
  elemsLine1 (pad22 " 1.5".toList) (pad22 " 2.5".toList) (pad22 " 0.25".toList)

def demoElemsLine2 : Chars :=
  elemsLine2 (pad22 " 12.5".toList) (pad22 " 7.25".toList) (pad22 " 9.5".toList)

def demoElemsLine3 : Chars :=
  elemsLine3 (pad22 " 3.5".toList) (pad22 " 4.25".toList) (pad22 " 6.5".toList)

def demoElemsLine4 : Chars :=
  elemsLine4 (pad22 " 8.5".toList) (pad22 " 0.5".toList) (pad22 " 1.25".toList)

def demoOrbitalBlock : OrbitalBlock :=
  ⟨demoDateLine, demoElemsLine1, demoElemsLine2, demoElemsLine3, demoElemsLine4⟩

lemma take_expecting_append (tag rest : Chars) :
    take_expecting (tag ++ rest) tag = .ok rest := by
  rw [take_expecting, if_pos, List.drop_left]
  exact List.isPrefixOf_iff_prefix.mpr (List.prefix_append tag rest)

lemma take_expecting_not {tag line : Chars} (h : ¬ tag <+: line) :
    take_expecting line tag = .error (.fieldTagMismatch tag line) := by
  rw [take_expecting, if_neg]
  simpa using h

lemma take_or_empty_of_len {s : Chars} (h : s.length = 22) (rest : Chars) :
    take_or_empty (s ++ rest) 22 = (s, rest) := by
  rw [take_or_empty, List.take_left' h, List.drop_left' h]

lemma take_or_empty_all {s : Chars} (h : s.length = 22) :
    take_or_empty s 22 = (s, []) := by
  rw [take_or_empty, ← h, List.take_length, List.drop_length]

lemma parsePositionLine_eq (sx sy sz : Chars) (hx : sx.length = 22)
    (hy : sy.length = 22) (hz : sz.length = 22) :
    parsePositionLine (posLineOf sx sy sz) =
      match parseNum sx, parseNum sy, parseNum sz with
      | .ok xv, .ok yv, .ok zv => .ok (xv, yv, zv)
      | .error e, _, _ => .error e
      | .ok _, .error e, _ => .error e
      | .ok _, .ok _, .error e => .error e := by
  simp only [posLineOf, parsePositionLine, take_expecting_append,
    take_or_empty_of_len hx, take_or_empty_of_len hy, take_or_empty_all hz]

lemma parseVelocityLine_eq (sx sy sz : Chars) (hx : sx.length = 22)
    (hy : sy.length = 22) (hz : sz.length = 22) :
    parseVelocityLine (velLineOf sx sy sz) =
      match parseNum sx, parseNum sy, parseNum sz with
      | .ok xv, .ok yv, .ok zv => .ok (xv, yv, zv)
      | .error e, _, _ => .error e
      | .ok _, .error e, _ => .error e
      | .ok _, .ok _, .error e => .error e := by
  simp only [velLineOf, parseVelocityLine, take_expecting_append,
    take_or_empty_of_len hx, take_or_empty_of_len hy, take_or_empty_all hz]

lemma parseElems1_eq (ec qr inc : Chars) (he : ec.length = 22)
    (hq : qr.length = 22) (hi : inc.length = 22) :
    parseElems1 (elemsLine1 ec qr inc) =
      match parseNum ec, parseNum inc with
      | .ok ev, .ok iv => .ok (ev, iv)
      | .error e, _ => .error e
      | .ok _, .error e => .error e := by
  simp only [elemsLine1, parseElems1, take_expecting_append,
    take_or_empty_of_len he, take_or_empty_of_len hq, take_or_empty_all hi]

lemma parseElems2_eq (om w tp : Chars) (ho : om.length = 22)
    (hw : w.length = 22) (_ht : tp.length = 22) :
    parseElems2 (elemsLine2 om w tp) =
      match parseNum om, parseNum w with
      | .ok ov, .ok wv => .ok (ov, wv)
      | .error e, _ => .error e
      | .ok _, .error e => .error e := by
  simp only [elemsLine2, parseElems2, take_expecting_append,
    take_or_empty_of_len ho, take_or_empty_of_len hw]

lemma parseElems3_eq (nn ma ta : Chars) (hn : nn.length = 22)
    (hm : ma.length = 22) (_ht : ta.length = 22) :
    parseElems3 (elemsLine3 nn ma ta) = parseNum ma := by
  simp only [elemsLine3, parseElems3, take_expecting_append,
    take_or_empty_of_len hn, take_or_empty_of_len hm]

lemma parseElems4_eq (a ad pr : Chars) (ha : a.length = 22)
    (hd : ad.length = 22) (_hp : pr.length = 22) :
    parseElems4 (elemsLine4 a ad pr) = parseNum a := by
  simp only [elemsLine4, parseElems4, take_expecting_append,
    take_or_empty_of_len ha, take_or_empty_of_len hd]

lemma runParser_nil {σ ι : Type} (step : σ → Chars → Except ParseError (Option ι × σ)) (s : σ) :
    runParser step s [] = ([], none) :=
  rfl

lemma runParser_cons_error {σ ι : Type} {step : σ → Chars → Except ParseError (Option ι × σ)}
    {s : σ} {l : Chars} {e : ParseError} (ls : List Chars) (h : step s l = .error e) :
    runParser step s (l :: ls) = ([], some e) := by
  rw [runParser, h]

lemma runParser_cons_none {σ ι : Type} {step : σ → Chars → Except ParseError (Option ι × σ)}
    {s s2 : σ} {l : Chars} (ls : List Chars) (h : step s l = .ok (none, s2)) :
    runParser step s (l :: ls) = runParser step s2 ls := by
  rw [runParser, h]

lemma runParser_cons_some {σ ι : Type} {step : σ → Chars → Except ParseError (Option ι × σ)}
    {s s2 : σ} {l : Chars} {it : ι} (ls : List Chars) (h : step s l = .ok (some it, s2)) :
    runParser step s (l :: ls) =
      (it :: (runParser step s2 ls).1, (runParser step s2 ls).2) := by
  rw [runParser, h]

lemma runParser_inert {σ ι : Type} {step : σ → Chars → Except ParseError (Option ι × σ)}
    {s : σ} {ls : List Chars} (h : ∀ l ∈ ls, step s l = .ok (none, s)) :
    runParser step s ls = ([], none) := by
  induction ls with
  | nil => rfl
  | cons l ls ih =>
    rw [runParser_cons_none ls (h l (List.mem_cons_self l ls))]
    exact ih fun x hx => h x (List.mem_cons_of_mem l hx)

lemma runParser_prelude {σ ι : Type} {step : σ → Chars → Except ParseError (Option ι × σ)}
    {s : σ} {pre : List Chars} (rest : List Chars)
    (h : ∀ l ∈ pre, step s l = .ok (none, s)) :
    runParser step s (pre ++ rest) = runParser step s rest := by
  induction pre with
  | nil => rfl
  | cons l pre ih =>
    rw [List.cons_append, runParser_cons_none _ (h l (List.mem_cons_self l pre))]
    exact ih fun x hx => h x (List.mem_cons_of_mem l hx)

lemma runParser_append_error {σ ι : Type} {step : σ → Chars → Except ParseError (Option ι × σ)}
    {s : σ} {ls : List Chars} {items : List ι} {e : ParseError} (extra : List Chars)
    (h : runParser step s ls = (items, some e)) :
    runParser step s (ls ++ extra) = (items, some e) := by
  induction ls generalizing s items with
  | nil =>
    rw [runParser_nil] at h
    simp at h
  | cons l ls ih =>
    rcases hstep : step s l with he | ⟨it, s2⟩
    · rw [runParser_cons_error ls hstep] at h
      rw [List.cons_append]
      exact (runParser_cons_error (ls ++ extra) hstep).trans h
    · rcases it with _ | it
      · rw [runParser_cons_none ls hstep] at h
        rw [List.cons_append, runParser_cons_none (ls ++ extra) hstep]
        exact ih h
      · rw [runParser_cons_some ls hstep] at h
        rcases hr : runParser step s2 ls with ⟨ri, re⟩
        rw [hr] at h
        simp only [Prod.mk.injEq] at h
        obtain ⟨h1, h2⟩ := h
        rw [List.cons_append, runParser_cons_some (ls ++ extra) hstep,
          ih (hr.trans (by rw [h2])), h1]

lemma length_filterMap_of_isSome {α β : Type _} (f : α → Option β) (l : List α)
    (h : ∀ a ∈ l, (f a).isSome = true) : (l.filterMap f).length = l.length := by
  induction l with
  | nil => rfl
  | cons a l ih =>
    rcases hf : f a with _ | b
    · exact absurd (hf ▸ h a (List.mem_cons_self a l)) (by simp)
    · rw [List.filterMap_cons_some hf, List.length_cons, List.length_cons,
        ih fun x hx => h x (List.mem_cons_of_mem a hx)]

lemma stepV_soe_skip {l : Chars} (h : l ≠ soeMarker) :
    stepV .WaitingForSoe l = .ok (none, .WaitingForSoe) := by
  simp [stepV, h]

lemma stepV_soe : stepV .WaitingForSoe soeMarker = .ok (none, .WaitingForDate) := by
  simp [stepV]

lemma stepV_date_eoe : stepV .WaitingForDate eoeMarker = .ok (none, .End) := by
  simp [stepV]

lemma stepV_date {l : Chars} (h : l ≠ eoeMarker) :
    stepV .WaitingForDate l = .ok (none, .WaitingForPosition) := by
  simp [stepV, h]

lemma stepV_end (l : Chars) : stepV .End l = .ok (none, .End) :=
  rfl

lemma stepV_pos {l : Chars} {p : ℚ × ℚ × ℚ} (h : parsePositionLine l = .ok p) :
    stepV .WaitingForPosition l = .ok (none, .Position p) := by
  simp [stepV, h]

lemma stepV_vel {l : Chars} {v : ℚ × ℚ × ℚ} (p : ℚ × ℚ × ℚ)
    (h : parseVelocityLine l = .ok v) :
    stepV (.Position p) l = .ok (none, .Complete p v) := by
  simp [stepV, h]

lemma stepV_complete (p v : ℚ × ℚ × ℚ) (l : Chars) :
    stepV (.Complete p v) l = .ok (some ⟨p, v⟩, .WaitingForDate) :=
  rfl

lemma stepO_soe_skip {l : Chars} (h : l ≠ soeMarker) :
    stepO .WaitingForSoe l = .ok (none, .WaitingForSoe) := by
  simp [stepO, h]

lemma stepO_soe : stepO .WaitingForSoe soeMarker = .ok (none, .WaitingForDate) := by
  simp [stepO]

lemma stepO_date_eoe : stepO .WaitingForDate eoeMarker = .ok (none, .End) := by
  simp [stepO]

lemma stepO_date {l : Chars} (h : l ≠ eoeMarker) :
    stepO .WaitingForDate l = .ok (none, .WaitingForEccentricityAndInclination) := by
  simp [stepO, h]

lemma stepO_end (l : Chars) : stepO .End l = .ok (none, .End) :=
  rfl

lemma stepO_line1 {l : Chars} {ev iv : ℚ} (h : parseElems1 l = .ok (ev, iv)) :
    stepO .WaitingForEccentricityAndInclination l =
      .ok (none, .EccentricityAndInclination ev iv) := by
  simp [stepO, h]

lemma stepO_line2 {l : Chars} {ov wv : ℚ} (ev iv : ℚ) (h : parseElems2 l = .ok (ov, wv)) :
    stepO (.EccentricityAndInclination ev iv) l =
      .ok (none, .AddedAscendingNodeAndPericfocus ev iv ov wv) := by
  simp [stepO, h]

lemma stepO_line3 {l : Chars} {mv : ℚ} (ev iv ov wv : ℚ) (h : parseElems3 l = .ok mv) :
    stepO (.AddedAscendingNodeAndPericfocus ev iv ov wv) l =
      .ok (none, .AddedMeanAnomaly ev iv ov wv mv) := by
  simp [stepO, h]

lemma stepO_line4 {l : Chars} {av : ℚ} (ev iv ov wv mv : ℚ) (h : parseElems4 l = .ok av) :
    stepO (.AddedMeanAnomaly ev iv ov wv mv) l =
      .ok (some ⟨ev, iv, ov, wv, mv, av⟩, .WaitingForDate) := by
  simp [stepO, h]

lemma runV_blocks (bs : List VectorBlock) (post : List Chars)
    (h : ∀ b ∈ bs, b.Valid) :
    runParser stepV .WaitingForDate ((bs.map VectorBlock.lines).flatten ++ (eoeMarker :: post))
      = (bs.filterMap VectorBlock.item?, none) := by
  induction bs with
  | nil =>
    rw [List.map_nil, List.flatten_nil, List.nil_append,
      runParser_cons_none post stepV_date_eoe, runParser_inert fun l _ => stepV_end l,
      List.filterMap_nil]
  | cons b bs ih =>
    obtain ⟨hd, hp, hv⟩ := h b (List.mem_cons_self b bs)
    rcases hpp : parsePositionLine b.posLine with e | p
    · rw [hpp] at hp
      simp [isOkE] at hp
    rcases hvv : parseVelocityLine b.velLine with e | v
    · rw [hvv] at hv
      simp [isOkE] at hv
    rw [List.map_cons, List.flatten_cons, VectorBlock.lines]
    simp only [List.cons_append, List.nil_append, List.append_assoc]
    rw [runParser_cons_none _ (stepV_date hd), runParser_cons_none _ (stepV_pos hpp),
      runParser_cons_none _ (stepV_vel p hvv),
      runParser_cons_some _ (stepV_complete p v b.thirdLine),
      ih fun x hx => h x (List.mem_cons_of_mem b hx)]
    simp [VectorBlock.item?, hpp, hvv, List.filterMap_cons]

lemma runO_blocks (bs : List OrbitalBlock) (post : List Chars)
    (h : ∀ b ∈ bs, b.Valid) :
    runParser stepO .WaitingForDate ((bs.map OrbitalBlock.lines).flatten ++ (eoeMarker :: post))
      = (bs.filterMap OrbitalBlock.item?, none) := by
  induction bs with
  | nil =>
    rw [List.map_nil, List.flatten_nil, List.nil_append,
      runParser_cons_none post stepO_date_eoe, runParser_inert fun l _ => stepO_end l,
      List.filterMap_nil]
  | cons b bs ih =>
    obtain ⟨hd, h1, h2, h3, h4⟩ := h b (List.mem_cons_self b bs)
    rcases hp1 : parseElems1 b.line1 with e | ⟨ev, iv⟩
    · rw [hp1] at h1
      simp [isOkE] at h1
    rcases hp2 : parseElems2 b.line2 with e | ⟨ov, wv⟩
    · rw [hp2] at h2
      simp [isOkE] at h2
    rcases hp3 : parseElems3 b.line3 with e | mv
    · rw [hp3] at h3
      simp [isOkE] at h3
    rcases hp4 : parseElems4 b.line4 with e | av
    · rw [hp4] at h4
      simp [isOkE] at h4
    rw [List.map_cons, List.flatten_cons, OrbitalBlock.lines]
    simp only [List.cons_append, List.nil_append, List.append_assoc]
    rw [runParser_cons_none _ (stepO_date hd), runParser_cons_none _ (stepO_line1 hp1),
      runParser_cons_none _ (stepO_line2 ev iv hp2),
      runParser_cons_none _ (stepO_line3 ev iv ov wv hp3),
      runParser_cons_some _ (stepO_line4 ev iv ov wv mv hp4),
      ih fun x hx => h x (List.mem_cons_of_mem b hx)]
    simp [OrbitalBlock.item?, hp1, hp2, hp3, hp4, List.filterMap_cons]

lemma runVector_wellFormed (pre : List Chars) (bs : List VectorBlock) (post : List Chars)
    (hpre : ∀ l ∈ pre, l ≠ soeMarker) (hbs : ∀ b ∈ bs, b.Valid) :
    runVector (pre ++ (soeMarker :: ((bs.map VectorBlock.lines).flatten ++ (eoeMarker :: post))))
      = (bs.filterMap VectorBlock.item?, none) := by
  rw [runVector, vectorParserInitState,
    runParser_prelude _ fun l hl => stepV_soe_skip (hpre l hl),
    runParser_cons_none _ stepV_soe, runV_blocks bs post hbs]

lemma runOrbital_wellFormed (pre : List Chars) (bs : List OrbitalBlock) (post : List Chars)
    (hpre : ∀ l ∈ pre, l ≠ soeMarker) (hbs : ∀ b ∈ bs, b.Valid) :
    runOrbital (pre ++ (soeMarker :: ((bs.map OrbitalBlock.lines).flatten ++ (eoeMarker :: post))))
      = (bs.filterMap OrbitalBlock.item?, none) := by
  rw [runOrbital, orbitalParserInitState,
    runParser_prelude _ fun l hl => stepO_soe_skip (hpre l hl),
    runParser_cons_none _ stepO_soe, runO_blocks bs post hbs]

lemma not_xTag_leading {line : Chars} (h : yTag <+: line) : ¬ xTag <+: line := by
  intro hx
  have h1 : xTag = line.take 4 := List.prefix_iff_eq_take.mp hx
  have h2 : yTag = line.take 4 := List.prefix_iff_eq_take.mp h
  exact absurd (h1.trans h2.symm) (by decide)

lemma parseNum_isF32 {s : Chars} {q : ℚ} (h : parseNum s = .ok q) : isF32 q := by
  rw [parseNum] at h
  rcases hp : parseSci (trimChars s) with _ | r
  · rw [hp] at h
    simp at h
  · rw [hp] at h
    simp only [Except.ok.injEq] at h
    exact ⟨r, h.symm⟩

lemma parsePositionLine_isF32 {l : Chars} {p : ℚ × ℚ × ℚ}
    (h : parsePositionLine l = .ok p) : isF32 p.1 ∧ isF32 p.2.1 ∧ isF32 p.2.2 := by
  rw [parsePositionLine] at h
  split at h
  · exact absurd h (by simp)
  split at h
  · exact absurd h (by simp)
  split at h
  · exact absurd h (by simp)
  split at h <;>
    first
    | (rename_i xv yv zv hx hy hz
       simp only [Except.ok.injEq] at h
       subst h
       exact ⟨parseNum_isF32 hx, parseNum_isF32 hy, parseNum_isF32 hz⟩)
    | simp at h

lemma parseVelocityLine_isF32 {l : Chars} {v : ℚ × ℚ × ℚ}
    (h : parseVelocityLine l = .ok v) : isF32 v.1 ∧ isF32 v.2.1 ∧ isF32 v.2.2 := by
  rw [parseVelocityLine] at h
  split at h
  · exact absurd h (by simp)
  split at h
  · exact absurd h (by simp)
  split at h
  · exact absurd h (by simp)
  split at h <;>
    first
    | (rename_i xv yv zv hx hy hz
       simp only [Except.ok.injEq] at h
       subst h
       exact ⟨parseNum_isF32 hx, parseNum_isF32 hy, parseNum_isF32 hz⟩)
    | simp at h

lemma parseElems1_isF32 {l : Chars} {ev iv : ℚ}
    (h : parseElems1 l = .ok (ev, iv)) : isF32 ev ∧ isF32 iv := by
  rw [parseElems1] at h
  split at h
  · exact absurd h (by simp)
  split at h
  · exact absurd h (by simp)
  split at h
  · exact absurd h (by simp)
  split at h <;>
    first
    | (rename_i av bv ha hb
       simp only [Except.ok.injEq, Prod.mk.injEq] at h
       obtain ⟨h1, h2⟩ := h
       exact ⟨h1 ▸ parseNum_isF32 ha, h2 ▸ parseNum_isF32 hb⟩)
    | simp at h

lemma parseElems2_isF32 {l : Chars} {ov wv : ℚ}
    (h : parseElems2 l = .ok (ov, wv)) : isF32 ov ∧ isF32 wv := by
  rw [parseElems2] at h
  split at h
  · exact absurd h (by simp)
  split at h
  · exact absurd h (by simp)
  split at h
  · exact absurd h (by simp)
  split at h <;>
    first
    | (rename_i av bv ha hb
       simp only [Except.ok.injEq, Prod.mk.injEq] at h
       obtain ⟨h1, h2⟩ := h
       exact ⟨h1 ▸ parseNum_isF32 ha, h2 ▸ parseNum_isF32 hb⟩)
    | simp at h

lemma parseElems3_isF32 {l : Chars} {mv : ℚ}
    (h : parseElems3 l = .ok mv) : isF32 mv := by
  rw [parseElems3] at h
  split at h
  · exact absurd h (by simp)
  split at h
  · exact absurd h (by simp)
  split at h
  · exact absurd h (by simp)
  exact parseNum_isF32 h

lemma parseElems4_isF32 {l : Chars} {av : ℚ}
    (h : parseElems4 l = .ok av) : isF32 av := by
  rw [parseElems4] at h
  split at h
  · exact absurd h (by simp)
  split at h
  · exact absurd h (by simp)
  split at h
  · exact absurd h (by simp)
  exact parseNum_isF32 h

lemma runParser_invariant {σ ι : Type} {step : σ → Chars → Except ParseError (Option ι × σ)}
    (Inv : σ → Prop) (Good : ι → Prop)
    (hstep : ∀ s l out s2, step s l = .ok (out, s2) → Inv s →
      Inv s2 ∧ ∀ it, out = some it → Good it) :
    ∀ (s : σ) (ls : List Chars), Inv s → ∀ it ∈ (runParser step s ls).1, Good it := by
  intro s ls
  induction ls generalizing s with
  | nil =>
    intro _ it hit
    rw [runParser_nil] at hit
    simp at hit
  | cons l ls ih =>
    intro hs it hit
    rcases hstep2 : step s l with e | ⟨out, s2⟩
    · rw [runParser_cons_error ls hstep2] at hit
      simp at hit
    · obtain ⟨hinv2, hgood⟩ := hstep s l out s2 hstep2 hs
      rcases out with _ | it2
      · rw [runParser_cons_none ls hstep2] at hit
        exact ih s2 hinv2 it hit
      · rw [runParser_cons_some ls hstep2] at hit
        rcases List.mem_cons.mp hit with h | h
        · exact h ▸ hgood it2 rfl
        · exact ih s2 hinv2 it h

lemma stepV_preserves_f32 (s : EphemerisVectorParserState) (l : Chars)
    (out : Option EphemerisVectorItem) (s2 : EphemerisVectorParserState)
    (h : stepV s l = .ok (out, s2)) (hs : vectorStateAllF32 s) :
    vectorStateAllF32 s2 ∧ ∀ it, out = some it → vectorItemAllF32 it := by
  cases s with
  | WaitingForSoe =>
    simp only [stepV, Except.ok.injEq, Prod.mk.injEq] at h
    obtain ⟨ho, h2⟩ := h
    subst h2
    refine ⟨?_, fun it hit => absurd (ho.trans hit) (by simp)⟩
    split_ifs <;> trivial
  | WaitingForDate =>
    simp only [stepV, Except.ok.injEq, Prod.mk.injEq] at h
    obtain ⟨ho, h2⟩ := h
    subst h2
    refine ⟨?_, fun it hit => absurd (ho.trans hit) (by simp)⟩
    split_ifs <;> trivial
  | WaitingForPosition =>
    simp only [stepV] at h
    rcases hp : parsePositionLine l with e | p
    · rw [hp] at h
      exact absurd h (by simp)
    · rw [hp] at h
      simp only [Except.ok.injEq, Prod.mk.injEq] at h
      obtain ⟨ho, h2⟩ := h
      subst h2
      exact ⟨parsePositionLine_isF32 hp, fun it hit => absurd (ho.trans hit) (by simp)⟩
  | Position p =>
    simp only [stepV] at h
    rcases hv : parseVelocityLine l with e | v
    · rw [hv] at h
      exact absurd h (by simp)
    · rw [hv] at h
      simp only [Except.ok.injEq, Prod.mk.injEq] at h
      obtain ⟨ho, h2⟩ := h
      subst h2
      exact ⟨⟨hs, parseVelocityLine_isF32 hv⟩,
        fun it hit => absurd (ho.trans hit) (by simp)⟩
  | Complete p v =>
    simp only [stepV, Except.ok.injEq, Prod.mk.injEq] at h
    obtain ⟨ho, h2⟩ := h
    subst h2
    refine ⟨trivial, fun it hit => ?_⟩
    obtain ⟨hp, hv⟩ := hs
    have : it = ⟨p, v⟩ := by
      have := ho.trans hit
      simpa using this.symm
    subst this
    exact ⟨hp.1, hp.2.1, hp.2.2, hv.1, hv.2.1, hv.2.2⟩
  | End =>
    simp only [stepV, Except.ok.injEq, Prod.mk.injEq] at h
    obtain ⟨ho, h2⟩ := h
    subst h2
    exact ⟨trivial, fun it hit => absurd (ho.trans hit) (by simp)⟩

lemma stepO_preserves_f32 (s : EphemerisOrbitalElementsParserState) (l : Chars)
    (out : Option EphemerisOrbitalElementsItem) (s2 : EphemerisOrbitalElementsParserState)
    (h : stepO s l = .ok (out, s2)) (hs : orbitalStateAllF32 s) :
    orbitalStateAllF32 s2 ∧ ∀ it, out = some it → orbitalItemAllF32 it := by
  cases s with
  | WaitingForSoe =>
    simp only [stepO, Except.ok.injEq, Prod.mk.injEq] at h
    obtain ⟨ho, h2⟩ := h
    subst h2
    refine ⟨?_, fun it hit => absurd (ho.trans hit) (by simp)⟩
    split_ifs <;> trivial
  | WaitingForDate =>
    simp only [stepO, Except.ok.injEq, Prod.mk.injEq] at h
    obtain ⟨ho, h2⟩ := h
    subst h2
    refine ⟨?_, fun it hit => absurd (ho.trans hit) (by simp)⟩
    split_ifs <;> trivial
  | WaitingForEccentricityAndInclination =>
    simp only [stepO] at h
    rcases hp : parseElems1 l with e | ⟨ev, iv⟩
    · rw [hp] at h
      exact absurd h (by simp)
    · rw [hp] at h
      simp only [Except.ok.injEq, Prod.mk.injEq] at h
      obtain ⟨ho, h2⟩ := h
      subst h2
      exact ⟨parseElems1_isF32 hp, fun it hit => absurd (ho.trans hit) (by simp)⟩
  | EccentricityAndInclination ev iv =>
    simp only [stepO] at h
    rcases hp : parseElems2 l with e | ⟨ov, wv⟩
    · rw [hp] at h
      exact absurd h (by simp)
    · rw [hp] at h
      simp only [Except.ok.injEq, Prod.mk.injEq] at h
      obtain ⟨ho, h2⟩ := h
      subst h2
      obtain ⟨he, hi⟩ := hs
      obtain ⟨hov, hwv⟩ := parseElems2_isF32 hp
      exact ⟨⟨he, hi, hov, hwv⟩, fun it hit => absurd (ho.trans hit) (by simp)⟩
  | AddedAscendingNodeAndPericfocus ev iv ov wv =>
    simp only [stepO] at h
    rcases hp : parseElems3 l with e | mv
    · rw [hp] at h
      exact absurd h (by simp)
    · rw [hp] at h
      simp only [Except.ok.injEq, Prod.mk.injEq] at h
      obtain ⟨ho, h2⟩ := h
      subst h2
      obtain ⟨he, hi, hov, hwv⟩ := hs
      exact ⟨⟨he, hi, hov, hwv, parseElems3_isF32 hp⟩,
        fun it hit => absurd (ho.trans hit) (by simp)⟩
  | AddedMeanAnomaly ev iv ov wv mv =>
    simp only [stepO] at h
    rcases hp : parseElems4 l with e | av
    · rw [hp] at h
      exact absurd h (by simp)
    · rw [hp] at h
      simp only [Except.ok.injEq, Prod.mk.injEq] at h
      obtain ⟨ho, h2⟩ := h
      subst h2
      obtain ⟨he, hi, hov, hwv, hmv⟩ := hs
      refine ⟨trivial, fun it hit => ?_⟩
      have : it = ⟨ev, iv, ov, wv, mv, av⟩ := by
        have := ho.trans hit
        simpa using this.symm
      subst this
      exact ⟨he, hi, hov, hwv, hmv, parseElems4_isF32 hp⟩
  | End =>
    simp only [stepO, Except.ok.injEq, Prod.mk.injEq] at h
    obtain ⟨ho, h2⟩ := h
    subst h2
    exact ⟨trivial, fun it hit => absurd (ho.trans hit) (by simp)⟩

lemma vectorBlock_isSome_of_valid {b : VectorBlock} (h : b.Valid) :
    (b.item?).isSome = true := by
  obtain ⟨-, hp, hv⟩ := h
  rcases hpp : parsePositionLine b.posLine with e | p
  · rw [hpp] at hp
    simp [isOkE] at hp
  rcases hvv : parseVelocityLine b.velLine with e | v
  · rw [hvv] at hv
    simp [isOkE] at hv
  simp [VectorBlock.item?, hpp, hvv]

lemma orbitalBlock_isSome_of_valid {b : OrbitalBlock} (h : b.Valid) :
    (b.item?).isSome = true := by
  obtain ⟨-, h1, h2, h3, h4⟩ := h
  rcases hp1 : parseElems1 b.line1 with e | ⟨ev, iv⟩
  · rw [hp1] at h1
    simp [isOkE] at h1
  rcases hp2 : parseElems2 b.line2 with e | ⟨ov, wv⟩
  · rw [hp2] at h2
    simp [isOkE] at h2
  rcases hp3 : parseElems3 b.line3 with e | mv
  · rw [hp3] at h3
    simp [isOkE] at h3
  rcases hp4 : parseElems4 b.line4 with e | av
  · rw [hp4] at h4
    simp [isOkE] at h4
  simp [OrbitalBlock.item?, hp1, hp2, hp3, hp4]

section

attribute [local semireducible] Rat.mul Rat.inv Rat.add Rat.sub

example : parseSci " 1.5".toList = none := by decide
example : parseSci "1.5".toList = some (3 / 2) := by decide
example : parseNum " 1.5 ".toList = .ok (3 / 2) := by decide
example : parseNum "-2.5E+01".toList = .ok (-25) := by decide
example : parseNum "2.5E-01".toList = .ok (1 / 4) := by decide
example : parseNum "abc".toList = .error (.numericFormatError "abc".toList) := by decide
example : runVector [soeMarker, eoeMarker] = ([], none) := by decide

end

section

attribute [local semireducible] Rat.mul Rat.inv Rat.add Rat.sub

/-- C7: for the input consisting exactly of the line "$$SOE" immediately
followed by the line "$$EOE" (a data section with zero records), both
parsers yield an empty output sequence and no error. -/
theorem c7_empty_data_section :
    runVector [soeMarker, eoeMarker] = ([], none) ∧
    runOrbital [soeMarker, eoeMarker] = ([], none) :=
  ⟨by decide, by decide⟩

/-- C8: for every finite input with no line equal to "$$SOE", each parser
yields an empty output sequence and never raises an error: every line is
skipped in the awaiting-start state, which the machine never leaves. -/
theorem c8_no_start_marker (ls : List Chars) (h : ∀ l ∈ ls, l ≠ soeMarker) :
    runVector ls = ([], none) ∧ runOrbital ls = ([], none) :=
  ⟨runParser_inert fun l hl => stepV_soe_skip (h l hl),
   runParser_inert fun l hl => stepO_soe_skip (h l hl)⟩

theorem c8_no_start_marker_witness :
    runVector ["Ephemeris / WGS-84".toList, "Center body name: Earth".toList] = ([], none) ∧
    runOrbital ["Ephemeris / WGS-84".toList, "Center body name: Earth".toList] = ([], none) :=
  c8_no_start_marker ["Ephemeris / WGS-84".toList, "Center body name: Earth".toList] (by decide)

/-- C2: any field-tag mismatch or numeric-parse failure is fatal for the
whole sequence: once a run of either parser ends in an error, appending
any further input lines changes neither the items already emitted nor the
error, so no record (in particular no partial record) is emitted for the
failing block or any subsequent block; and a line that begins with " Y ="
where " X =" is expected produces a FieldTagMismatch naming " X =" as the
expected tag. -/
theorem c2_fatal_parse_errors :
    (∀ (s : EphemerisVectorParserState) (ls extra : List Chars)
        (items : List EphemerisVectorItem) (e : ParseError),
        runParser stepV s ls = (items, some e) →
        runParser stepV s (ls ++ extra) = (items, some e)) ∧
    (∀ (s : EphemerisOrbitalElementsParserState) (ls extra : List Chars)
        (items : List EphemerisOrbitalElementsItem) (e : ParseError),
        runParser stepO s ls = (items, some e) →
        runParser stepO s (ls ++ extra) = (items, some e)) ∧
    (∀ line : Chars, yTag <+: line →
        stepV .WaitingForPosition line = .error (.fieldTagMismatch xTag line)) := by
  refine ⟨fun s ls extra items e h => runParser_append_error extra h,
    fun s ls extra items e h => runParser_append_error extra h,
    fun line hline => ?_⟩
  have hx := take_expecting_not (not_xTag_leading hline)
  simp [stepV, parsePositionLine, hx]

theorem c2_fatal_parse_errors_witness :
    runParser stepV EphemerisVectorParserState.WaitingForPosition
      ([" Y = 1.0".toList] ++ [demoPosLine, demoVelLine, demoThirdLine]) =
      ([], some (.fieldTagMismatch xTag " Y = 1.0".toList)) ∧
    stepV .WaitingForPosition " Y = 1.0".toList =
      .error (.fieldTagMismatch xTag " Y = 1.0".toList) :=
  ⟨c2_fatal_parse_errors.1 _ _ _ _ _ (by decide),
   c2_fatal_parse_errors.2.2 " Y = 1.0".toList (by decide)⟩

/-- C6: each parser is initialized to the awaiting-start-marker state and
its lifecycle only moves forward: a successful line pull never decreases
the lifecycle phase (awaiting-start, in-data-section — the phase in which
the spec's record cycle AwaitingRecordOrEnd/.../Complete/reset lives —
and finished), and the finished state is absorbing. -/
theorem c6_state_forward_only :
    vectorParserInitState = .WaitingForSoe ∧
    orbitalParserInitState = .WaitingForSoe ∧
    (∀ (s : EphemerisVectorParserState) (l : Chars) out s2,
        stepV s l = .ok (out, s2) → vectorPhase s ≤ vectorPhase s2) ∧
    (∀ (s : EphemerisOrbitalElementsParserState) (l : Chars) out s2,
        stepO s l = .ok (out, s2) → orbitalPhase s ≤ orbitalPhase s2) ∧
    (∀ l, stepV .End l = .ok (none, .End)) ∧
    (∀ l, stepO .End l = .ok (none, .End)) := by
  refine ⟨rfl, rfl, ?_, ?_, fun l => rfl, fun l => rfl⟩
  · intro s l out s2 h
    cases s with
    | WaitingForSoe => exact Nat.zero_le _
    | WaitingForDate =>
      simp only [stepV, Except.ok.injEq, Prod.mk.injEq] at h
      obtain ⟨-, h2⟩ := h
      subst h2
      split_ifs <;> decide
    | WaitingForPosition =>
      simp only [stepV] at h
      rcases hp : parsePositionLine l with e | p <;> rw [hp] at h
      · simp at h
      · simp only [Except.ok.injEq, Prod.mk.injEq] at h
        obtain ⟨-, h2⟩ := h
        subst h2
        exact Nat.le_refl _
    | Position p =>
      simp only [stepV] at h
      rcases hv : parseVelocityLine l with e | v <;> rw [hv] at h
      · simp at h
      · simp only [Except.ok.injEq, Prod.mk.injEq] at h
        obtain ⟨-, h2⟩ := h
        subst h2
        exact Nat.le_refl _
    | Complete p v =>
      simp only [stepV, Except.ok.injEq, Prod.mk.injEq] at h
      obtain ⟨-, h2⟩ := h
      subst h2
      exact Nat.le_refl _
    | End =>
      simp only [stepV, Except.ok.injEq, Prod.mk.injEq] at h
      obtain ⟨-, h2⟩ := h
      subst h2
      exact Nat.le_refl _
  · intro s l out s2 h
    cases s with
    | WaitingForSoe => exact Nat.zero_le _
    | WaitingForDate =>
      simp only [stepO, Except.ok.injEq, Prod.mk.injEq] at h
      obtain ⟨-, h2⟩ := h
      subst h2
      split_ifs <;> decide
    | WaitingForEccentricityAndInclination =>
      simp only [stepO] at h
      rcases hp : parseElems1 l with e | ⟨ev, iv⟩ <;> rw [hp] at h
      · simp at h
      · simp only [Except.ok.injEq, Prod.mk.injEq] at h
        obtain ⟨-, h2⟩ := h
        subst h2
        exact Nat.le_refl _
    | EccentricityAndInclination ev iv =>
      simp only [stepO] at h
      rcases hp : parseElems2 l with e | ⟨ov, wv⟩ <;> rw [hp] at h
      · simp at h
      · simp only [Except.ok.injEq, Prod.mk.injEq] at h
        obtain ⟨-, h2⟩ := h
        subst h2
        exact Nat.le_refl _
    | AddedAscendingNodeAndPericfocus ev iv ov wv =>
      simp only [stepO] at h
      rcases hp : parseElems3 l with e | mv <;> rw [hp] at h
      · simp at h
      · simp only [Except.ok.injEq, Prod.mk.injEq] at h
        obtain ⟨-, h2⟩ := h
        subst h2
        exact Nat.le_refl _
    | AddedMeanAnomaly ev iv ov wv mv =>
      simp only [stepO] at h
      rcases hp : parseElems4 l with e | av <;> rw [hp] at h
      · simp at h
      · simp only [Except.ok.injEq, Prod.mk.injEq] at h
        obtain ⟨-, h2⟩ := h
        subst h2
        exact Nat.le_refl _
    | End =>
      simp only [stepO, Except.ok.injEq, Prod.mk.injEq] at h
      obtain ⟨-, h2⟩ := h
      subst h2
      exact Nat.le_refl _

theorem c6_state_forward_only_witness :
    vectorPhase .WaitingForSoe ≤ vectorPhase .WaitingForDate ∧
    orbitalPhase .WaitingForSoe ≤ orbitalPhase .WaitingForDate :=
  ⟨c6_state_forward_only.2.2.1 .WaitingForSoe soeMarker none .WaitingForDate (by decide),
   c6_state_forward_only.2.2.2.1 .WaitingForSoe soeMarker none .WaitingForDate (by decide)⟩

/-- C9: the end-of-data marker is only terminal in the awaiting-record-or-
end (WaitingForDate) state; in every accumulation state the line "$$EOE"
is handled as a data line and yields a FieldTagMismatch for the first tag
that state expects, rather than clean termination — shown also on a full
run where "$$EOE" arrives where the X line was expected. -/
theorem c9_eoe_only_terminal_between_records :
    stepV .WaitingForDate eoeMarker = .ok (none, .End) ∧
    stepO .WaitingForDate eoeMarker = .ok (none, .End) ∧
    stepV .WaitingForPosition eoeMarker = .error (.fieldTagMismatch xTag eoeMarker) ∧
    (∀ p, stepV (.Position p) eoeMarker = .error (.fieldTagMismatch vxTag eoeMarker)) ∧
    stepO .WaitingForEccentricityAndInclination eoeMarker =
      .error (.fieldTagMismatch ecTag eoeMarker) ∧
    (∀ ev iv, stepO (.EccentricityAndInclination ev iv) eoeMarker =
      .error (.fieldTagMismatch omTag eoeMarker)) ∧
    (∀ ev iv ov wv, stepO (.AddedAscendingNodeAndPericfocus ev iv ov wv) eoeMarker =
      .error (.fieldTagMismatch nTag eoeMarker)) ∧
    (∀ ev iv ov wv mv, stepO (.AddedMeanAnomaly ev iv ov wv mv) eoeMarker =
      .error (.fieldTagMismatch aTag eoeMarker)) ∧
    runVector [soeMarker, demoDateLine, eoeMarker] =
      ([], some (.fieldTagMismatch xTag eoeMarker)) :=
  ⟨by decide, by decide, by decide, fun p => rfl, by decide, fun ev iv => rfl,
   fun ev iv ov wv => rfl, fun ev iv ov wv mv => rfl, by decide⟩

theorem c9_eoe_only_terminal_between_records_witness :
    stepV (.Position (1, 2, 3)) eoeMarker = .error (.fieldTagMismatch vxTag eoeMarker) ∧
    stepO (.AddedMeanAnomaly 1 2 3 4 5) eoeMarker = .error (.fieldTagMismatch aTag eoeMarker) :=
  ⟨c9_eoe_only_terminal_between_records.2.2.2.1 (1, 2, 3),
   c9_eoe_only_terminal_between_records.2.2.2.2.2.2.2.1 1 2 3 4 5⟩

/-- C10: if the input is exhausted before a record block completes — for
the vector parser even when position and velocity have both been
accumulated and only the third line is missing, for the orbital parser
after three of its four lines — the output sequence simply ends: no
record is emitted for the partial block and no error is raised. -/
theorem c10_truncation_is_silent (date posL velL l1 l2 l3 : Chars)
    (pv vv : ℚ × ℚ × ℚ) (ev iv ov wv mv : ℚ)
    (hd : date ≠ eoeMarker)
    (hp : parsePositionLine posL = .ok pv)
    (hv : parseVelocityLine velL = .ok vv)
    (h1 : parseElems1 l1 = .ok (ev, iv))
    (h2 : parseElems2 l2 = .ok (ov, wv))
    (h3 : parseElems3 l3 = .ok mv) :
    runVector [soeMarker, date, posL, velL] = ([], none) ∧
    runOrbital [soeMarker, date, l1, l2, l3] = ([], none) := by
  constructor
  · rw [runVector, vectorParserInitState, runParser_cons_none _ stepV_soe,
      runParser_cons_none _ (stepV_date hd), runParser_cons_none _ (stepV_pos hp),
      runParser_cons_none _ (stepV_vel pv hv), runParser_nil]
  · rw [runOrbital, orbitalParserInitState, runParser_cons_none _ stepO_soe,
      runParser_cons_none _ (stepO_date hd), runParser_cons_none _ (stepO_line1 h1),
      runParser_cons_none _ (stepO_line2 ev iv h2),
      runParser_cons_none _ (stepO_line3 ev iv ov wv h3), runParser_nil]

theorem c10_truncation_is_silent_witness :
    runVector [soeMarker, demoDateLine, demoPosLine, demoVelLine] = ([], none) ∧
    runOrbital [soeMarker, demoDateLine, demoElemsLine1, demoElemsLine2, demoElemsLine3] =
      ([], none) :=
  c10_truncation_is_silent demoDateLine demoPosLine demoVelLine
    demoElemsLine1 demoElemsLine2 demoElemsLine3
    (3063825/16384, 10177281/4096, -6002281/1024)
    (-11283229/33554432, 14432167/1073741824, -5401217/1073741824)
    (3/2) (1/4) (25/2) (29/4) (17/4)
    (by decide) (by decide) (by decide) (by decide) (by decide) (by decide)

/-- C4: a synthetic vector block with injected 22-character field slices
for X, Y, Z, VX, VY, VZ and an arbitrary third line yields exactly one
record whose position and velocity components are exactly the parsed
injected values, independent of the third line's content (the third line
is universally quantified and absent from the result). -/
theorem c4_block_roundtrip (date sx sy sz svx svy svz third : Chars)
    (qx qy qz qvx qvy qvz : ℚ)
    (hd : date ≠ eoeMarker)
    (hlx : sx.length = 22) (hly : sy.length = 22) (hlz : sz.length = 22)
    (hlvx : svx.length = 22) (hlvy : svy.length = 22) (hlvz : svz.length = 22)
    (hqx : parseNum sx = .ok qx) (hqy : parseNum sy = .ok qy) (hqz : parseNum sz = .ok qz)
    (hqvx : parseNum svx = .ok qvx) (hqvy : parseNum svy = .ok qvy)
    (hqvz : parseNum svz = .ok qvz) :
    runVector [soeMarker, date, posLineOf sx sy sz, velLineOf svx svy svz, third, eoeMarker]
      = ([⟨(qx, qy, qz), (qvx, qvy, qvz)⟩], none) := by
  have hp : parsePositionLine (posLineOf sx sy sz) = .ok (qx, qy, qz) := by
    rw [parsePositionLine_eq sx sy sz hlx hly hlz, hqx, hqy, hqz]
  have hv : parseVelocityLine (velLineOf svx svy svz) = .ok (qvx, qvy, qvz) := by
    rw [parseVelocityLine_eq svx svy svz hlvx hlvy hlvz, hqvx, hqvy, hqvz]
  rw [runVector, vectorParserInitState, runParser_cons_none _ stepV_soe,
    runParser_cons_none _ (stepV_date hd), runParser_cons_none _ (stepV_pos hp),
    runParser_cons_none _ (stepV_vel _ hv),
    runParser_cons_some _ (stepV_complete _ _ third),
    runParser_cons_none _ stepV_date_eoe, runParser_nil]

theorem c4_block_roundtrip_witness :
    runVector [soeMarker, demoDateLine,
      posLineOf " 1.870010427985840E+02".toList " 2.484687803242536E+03".toList
        "-5.861602653492581E+03".toList,
      velLineOf "-3.362664133558439E-01".toList " 1.344100266143978E-02".toList
        "-5.030275220358716E-03".toList,
      demoThirdLine, eoeMarker]
      = ([⟨(3063825/16384, 10177281/4096, -6002281/1024),
           (-11283229/33554432, 14432167/1073741824, -5401217/1073741824)⟩], none) :=
  c4_block_roundtrip demoDateLine
    " 1.870010427985840E+02".toList " 2.484687803242536E+03".toList
    "-5.861602653492581E+03".toList "-3.362664133558439E-01".toList
    " 1.344100266143978E-02".toList "-5.030275220358716E-03".toList demoThirdLine
    (3063825/16384) (10177281/4096) (-6002281/1024)
    (-11283229/33554432) (14432167/1073741824) (-5401217/1073741824)
    (by decide) (by decide) (by decide) (by decide) (by decide) (by decide) (by decide)
    (by decide) (by decide) (by decide) (by decide) (by decide) (by decide)

/-- C5: two orbital-element inputs that differ only in the discarded field
slices (QR, Tp, N, TA, AD, PR) produce the same record sequence: the kept
fields (EC, IN, OM, W, MA, A) fully determine the emitted record and the
discarded slices never influence it. -/
theorem c5_discarded_fields_inert
    (date ec inc om w ma a qr tp nn ta ad pr qr2 tp2 nn2 ta2 ad2 pr2 : Chars)
    (qe qi qo qw qm qa : ℚ)
    (hd : date ≠ eoeMarker)
    (hlec : ec.length = 22) (hlinc : inc.length = 22) (hlom : om.length = 22)
    (hlw : w.length = 22) (hlma : ma.length = 22) (hla : a.length = 22)
    (hlqr : qr.length = 22) (hltp : tp.length = 22) (hlnn : nn.length = 22)
    (hlta : ta.length = 22) (hlad : ad.length = 22) (hlpr : pr.length = 22)
    (hlqr2 : qr2.length = 22) (hltp2 : tp2.length = 22) (hlnn2 : nn2.length = 22)
    (hlta2 : ta2.length = 22) (hlad2 : ad2.length = 22) (hlpr2 : pr2.length = 22)
    (hec : parseNum ec = .ok qe) (hinc : parseNum inc = .ok qi)
    (hom : parseNum om = .ok qo) (hw : parseNum w = .ok qw)
    (hma : parseNum ma = .ok qm) (ha : parseNum a = .ok qa) :
    runOrbital [soeMarker, date, elemsLine1 ec qr inc, elemsLine2 om w tp,
        elemsLine3 nn ma ta, elemsLine4 a ad pr, eoeMarker]
      = ([⟨qe, qi, qo, qw, qm, qa⟩], none) ∧
    runOrbital [soeMarker, date, elemsLine1 ec qr2 inc, elemsLine2 om w tp2,
        elemsLine3 nn2 ma ta2, elemsLine4 a ad2 pr2, eoeMarker]
      = ([⟨qe, qi, qo, qw, qm, qa⟩], none) := by
  have key : ∀ qrx tpx nnx tax adx prx : Chars, qrx.length = 22 → tpx.length = 22 →
      nnx.length = 22 → tax.length = 22 → adx.length = 22 → prx.length = 22 →
      runOrbital [soeMarker, date, elemsLine1 ec qrx inc, elemsLine2 om w tpx,
          elemsLine3 nnx ma tax, elemsLine4 a adx prx, eoeMarker]
        = ([⟨qe, qi, qo, qw, qm, qa⟩], none) := by
    intro qrx tpx nnx tax adx prx hq ht hn hta had hpr
    have k1 : parseElems1 (elemsLine1 ec qrx inc) = .ok (qe, qi) := by
      rw [parseElems1_eq ec qrx inc hlec hq hlinc, hec, hinc]
    have k2 : parseElems2 (elemsLine2 om w tpx) = .ok (qo, qw) := by
      rw [parseElems2_eq om w tpx hlom hlw ht, hom, hw]
    have k3 : parseElems3 (elemsLine3 nnx ma tax) = .ok qm := by
      rw [parseElems3_eq nnx ma tax hn hlma hta, hma]
    have k4 : parseElems4 (elemsLine4 a adx prx) = .ok qa := by
      rw [parseElems4_eq a adx prx hla had hpr, ha]
    rw [runOrbital, orbitalParserInitState, runParser_cons_none _ stepO_soe,
      runParser_cons_none _ (stepO_date hd), runParser_cons_none _ (stepO_line1 k1),
      runParser_cons_none _ (stepO_line2 qe qi k2),
      runParser_cons_none _ (stepO_line3 qe qi qo qw k3),
      runParser_cons_some _ (stepO_line4 qe qi qo qw qm k4),
      runParser_cons_none _ stepO_date_eoe, runParser_nil]
  exact ⟨key qr tp nn ta ad pr hlqr hltp hlnn hlta hlad hlpr,
    key qr2 tp2 nn2 ta2 ad2 pr2 hlqr2 hltp2 hlnn2 hlta2 hlad2 hlpr2⟩

theorem c5_discarded_fields_inert_witness :
    runOrbital [soeMarker, demoDateLine,
        elemsLine1 (pad22 " 1.5".toList) (pad22 " 2.5".toList) (pad22 " 0.25".toList),
        elemsLine2 (pad22 " 12.5".toList) (pad22 " 7.25".toList) (pad22 " 9.5".toList),
        elemsLine3 (pad22 " 3.5".toList) (pad22 " 4.25".toList) (pad22 " 6.5".toList),
        elemsLine4 (pad22 " 8.5".toList) (pad22 " 0.5".toList) (pad22 " 1.25".toList),
        eoeMarker]
      = ([⟨3/2, 1/4, 25/2, 29/4, 17/4, 17/2⟩], none) ∧
    runOrbital [soeMarker, demoDateLine,
        elemsLine1 (pad22 " 1.5".toList) (pad22 " 9.75".toList) (pad22 " 0.25".toList),
        elemsLine2 (pad22 " 12.5".toList) (pad22 " 7.25".toList) (pad22 " 111.5".toList),
        elemsLine3 (pad22 " 42.5".toList) (pad22 " 4.25".toList) (pad22 " 0.125".toList),
        elemsLine4 (pad22 " 8.5".toList) (pad22 " 77.5".toList) (pad22 " 3.25".toList),
        eoeMarker]
      = ([⟨3/2, 1/4, 25/2, 29/4, 17/4, 17/2⟩], none) :=
  c5_discarded_fields_inert demoDateLine
    (pad22 " 1.5".toList) (pad22 " 0.25".toList) (pad22 " 12.5".toList)
    (pad22 " 7.25".toList) (pad22 " 4.25".toList) (pad22 " 8.5".toList)
    (pad22 " 2.5".toList) (pad22 " 9.5".toList) (pad22 " 3.5".toList)
    (pad22 " 6.5".toList) (pad22 " 0.5".toList) (pad22 " 1.25".toList)
    (pad22 " 9.75".toList) (pad22 " 111.5".toList) (pad22 " 42.5".toList)
    (pad22 " 0.125".toList) (pad22 " 77.5".toList) (pad22 " 3.25".toList)
    (3/2) (1/4) (25/2) (29/4) (17/4) (17/2)
    (by decide)
    (by decide) (by decide) (by decide) (by decide) (by decide) (by decide)
    (by decide) (by decide) (by decide) (by decide) (by decide) (by decide)
    (by decide) (by decide) (by decide) (by decide) (by decide) (by decide)
    (by decide) (by decide) (by decide) (by decide) (by decide) (by decide)

/-- C3: on any well-formed report — a prelude without the start marker,
the start marker, record blocks (for the vector parser one date line plus
three data lines each, for the orbital parser one date line plus four
data lines each), the end marker, then anything — each parser emits
exactly one record per block, the record count equals the block count,
and the run terminates with no error and no trailing partial record. -/
theorem c3_one_record_per_block (preV postV preO postO : List Chars)
    (bsV : List VectorBlock) (bsO : List OrbitalBlock)
    (hpreV : ∀ l ∈ preV, l ≠ soeMarker) (hpreO : ∀ l ∈ preO, l ≠ soeMarker)
    (hbsV : ∀ b ∈ bsV, b.Valid) (hbsO : ∀ b ∈ bsO, b.Valid) :
    runVector (preV ++ (soeMarker ::
        ((bsV.map VectorBlock.lines).flatten ++ (eoeMarker :: postV))))
      = (bsV.filterMap VectorBlock.item?, none) ∧
    (bsV.filterMap VectorBlock.item?).length = bsV.length ∧
    runOrbital (preO ++ (soeMarker ::
        ((bsO.map OrbitalBlock.lines).flatten ++ (eoeMarker :: postO))))
      = (bsO.filterMap OrbitalBlock.item?, none) ∧
    (bsO.filterMap OrbitalBlock.item?).length = bsO.length :=
  ⟨runVector_wellFormed preV bsV postV hpreV hbsV,
   length_filterMap_of_isSome _ _ fun b hb => vectorBlock_isSome_of_valid (hbsV b hb),
   runOrbital_wellFormed preO bsO postO hpreO hbsO,
   length_filterMap_of_isSome _ _ fun b hb => orbitalBlock_isSome_of_valid (hbsO b hb)⟩

theorem c3_one_record_per_block_witness :
    runVector (["Revised: July 31, 2013".toList] ++ (soeMarker ::
        (([demoVectorBlock].map VectorBlock.lines).flatten ++
          (eoeMarker :: ["Coordinate system description:".toList]))))
      = ([demoVectorBlock].filterMap VectorBlock.item?, none) ∧
    ([demoVectorBlock].filterMap VectorBlock.item?).length = [demoVectorBlock].length ∧
    runOrbital (["Revised: July 31, 2013".toList] ++ (soeMarker ::
        (([demoOrbitalBlock].map OrbitalBlock.lines).flatten ++
          (eoeMarker :: ["Coordinate system description:".toList]))))
      = ([demoOrbitalBlock].filterMap OrbitalBlock.item?, none) ∧
    ([demoOrbitalBlock].filterMap OrbitalBlock.item?).length = [demoOrbitalBlock].length :=
  c3_one_record_per_block _ _ _ _ [demoVectorBlock] [demoOrbitalBlock]
    (by decide) (by decide) (by decide) (by decide)

/-- C1 counterexample: on the spec's own concrete vector scenario the
emitted Y position component equals the 32-bit (binary32) rounding of the
decimal field value 2.484687803242536E+03 and differs from its 64-bit
(binary64) value, so the program does not extract numeric field values as
64-bit floats and the emitted components are not float64 values. -/
theorem c1_counterexample :
    runVector demoVectorInput =
      ([⟨(3063825/16384, 10177281/4096, -6002281/1024),
         (-11283229/33554432, 14432167/1073741824, -5401217/1073741824)⟩], none) ∧
    (10177281 : ℚ)/4096 = round32 ((2484687803242536 : ℚ) / 10 ^ 12) ∧
    (10177281 : ℚ)/4096 ≠ round64 ((2484687803242536 : ℚ) / 10 ^ 12) :=
  ⟨by decide, by decide, by decide⟩

/-- C1 (amended): every numeric field value extracted by either parser is
parsed as a 32-bit single-precision float — the emitted records' position
and velocity components, and all six kept orbital elements, always lie in
the image of the binary32 rounding, matching the f32 fields of the
source. -/
theorem c1_all_values_are_f32 :
    (∀ (ls : List Chars) (it : EphemerisVectorItem),
        it ∈ (runVector ls).1 → vectorItemAllF32 it) ∧
    (∀ (ls : List Chars) (it : EphemerisOrbitalElementsItem),
        it ∈ (runOrbital ls).1 → orbitalItemAllF32 it) :=
  ⟨fun ls it hit => runParser_invariant vectorStateAllF32 vectorItemAllF32
      stepV_preserves_f32 vectorParserInitState ls trivial it hit,
   fun ls it hit => runParser_invariant orbitalStateAllF32 orbitalItemAllF32
      stepO_preserves_f32 orbitalParserInitState ls trivial it hit⟩

theorem c1_all_values_are_f32_witness :
    vectorItemAllF32 ⟨(3063825/16384, 10177281/4096, -6002281/1024),
      (-11283229/33554432, 14432167/1073741824, -5401217/1073741824)⟩ :=
  c1_all_values_are_f32.1 demoVectorInput
    ⟨(3063825/16384, 10177281/4096, -6002281/1024),
     (-11283229/33554432, 14432167/1073741824, -5401217/1073741824)⟩ (by decide)

end
